import Mathlib

/-!
Shallow embedding of the CredAuth verification-request workflow
(`core/models.py`, `core/views.py`, `institution/views.py`).

Modelling conventions:
* `timezone.now()` values and `timedelta`s are natural numbers (seconds).
* Database rows live in lists inside a `Store`; Django's `save()` on an
  existing row is an update keyed by primary key (`saveRequest`).
* A `VerificationRequest` carries one `pk` standing for both the
  auto-increment primary key and the unique `uuid` column (both uniquely
  identify the row; lookups in the views go through the uuid).
* The random 6-digit OTP drawn in `hr_verify` is passed in as an argument,
  modelling the draw `random.randint(100000, 999999)`.
* The `government` app is present (`Business is not None` in the views).
* Rendering, messages and e-mail are outside the store; an operation
  returns a result value describing the page or error plus the new store.
-/

namespace CredAuth

/-- Status choices of `VerificationRequest` (`core/models.py`):
`pending`, `confirmed`, `expired`. -/
inductive Status where
  | pending
  | confirmed
  | expired
deriving DecidableEq, Repr

/-- `core.models.OwnerProfile`: identity record keyed by the unique `id_no`. -/
structure OwnerProfile where
  id_no : String
  full_name : String
  mobile : String
  email : String
deriving DecidableEq, Repr

/-- `government.models.Business`: employer record; `staff` is the
many-to-many set of user primary keys that may act for the business. -/
structure Business where
  pk : Nat
  name : String
  registration_number : String
  staff : List Nat
deriving DecidableEq, Repr

/-- `core.models.Certificate`: belongs to an institution, optionally linked
to an `OwnerProfile` (here by that profile's unique `id_no`), with the
denormalized `owner_id_no` used for matching. -/
structure Certificate where
  pk : Nat
  institution : Nat
  owner : Option String
  owner_id_no : String
  owner_name : String
  degree_name : String
deriving DecidableEq, Repr

/-- `core.models.VerificationRequest`. `pk` stands for both the row's
primary key and its unique `uuid`. -/
structure VerificationRequest where
  pk : Nat
  hr_user : Option Nat
  hr_business : Option Nat
  id_no : String
  created_at : Nat
  otp : String
  otp_expires_at : Nat
  status : Status
  confirmed_at : Option Nat
  viewed_at : Option Nat
  note : String
deriving DecidableEq, Repr

/-- `core.models.AuditLog`: append-only entry (`user` nullable). -/
structure AuditLog where
  user : Option Nat
  action : String
  details : String
deriving DecidableEq, Repr

/-- An authenticated user: primary key and the `is_superuser` flag. -/
structure User where
  pk : Nat
  is_superuser : Bool
deriving DecidableEq, Repr

/-- The relational store: one list per table, plus the next fresh primary
key handed out for a created `VerificationRequest`. -/
structure Store where
  owners : List OwnerProfile
  businesses : List Business
  certificates : List Certificate
  requests : List VerificationRequest
  audit : List AuditLog
  nextPk : Nat
deriving DecidableEq, Repr

/-- `VerificationRequest.is_expired` (`core/models.py`):
`timezone.now() > self.otp_expires_at`, a strict comparison. -/
def is_expired (now : Nat) (v : VerificationRequest) : Bool :=
  decide (v.otp_expires_at < now)

/-- `VerificationRequest.mark_confirmed` (`core/models.py`): sets status to
`confirmed` and `confirmed_at` to `timezone.now()`. -/
def mark_confirmed (now : Nat) (v : VerificationRequest) : VerificationRequest :=
  { v with status := Status.confirmed, confirmed_at := some now }

/-- Django `save()` on an existing row: replace the row whose primary key
matches. -/
def saveRequest (reqs : List VerificationRequest) (v : VerificationRequest) :
    List VerificationRequest :=
  reqs.map (fun r => if r.pk == v.pk then v else r)

/-- `get_object_or_404(VerificationRequest, uuid=uuid)`: the stored row with
the given key, if any. -/
def getReq (s : Store) (pk : Nat) : Option VerificationRequest :=
  s.requests.find? (fun r => r.pk == pk)

/-- `business.staff.filter(pk=user_pk).exists()` for the business with
primary key `bpk`. -/
def businessStaff (s : Store) (bpk upk : Nat) : Bool :=
  s.businesses.any (fun b => b.pk == bpk && b.staff.contains upk)

/-- The queryset filter of `owner_confirm_otp`:
`VerificationRequest.objects.filter(id_no=id_no, otp=otp, status=pending)`. -/
def pendingMatches (reqs : List VerificationRequest) (id_no otp : String) :
    List VerificationRequest :=
  reqs.filter (fun v => v.id_no == id_no && v.otp == otp && v.status == Status.pending)

/-- `qs.order_by("-created_at").first()`: an element with maximal
`created_at` (earlier rows win ties, as some element must). -/
def pickLatest : List VerificationRequest → Option VerificationRequest
  | [] => none
  | v :: vs =>
    match pickLatest vs with
    | none => some v
    | some w => if v.created_at < w.created_at then some w else some v

/-- Outcome of `owner_confirm_otp`: the "no matching pending request or OTP
invalid" error, the "OTP has expired" error, or success. -/
inductive ConfirmResult where
  | notFound
  | expiredOtp
  | accepted
deriving DecidableEq, Repr

/-- `owner_confirm_otp` (`core/views.py`): the owner supplies `id_no` and
`otp`; the most recent matching pending request is confirmed, or marked
expired, or the call fails with the uniform not-found error. -/
def owner_confirm_otp (now : Nat) (id_no otp : String) (s : Store) :
    ConfirmResult × Store :=
  match pickLatest (pendingMatches s.requests id_no otp) with
  | none => (ConfirmResult.notFound, s)
  | some vr =>
    if is_expired now vr then
      (ConfirmResult.expiredOtp,
        { s with requests := saveRequest s.requests { vr with status := Status.expired } })
    else
      (ConfirmResult.accepted,
        { s with
            requests := saveRequest s.requests (mark_confirmed now vr),
            audit := s.audit ++
              [{ user := none, action := "owner_confirmed",
                 details := "Owner " ++ id_no ++ " confirmed request" }] })

/-- Visibility in `hr_request_list`: superusers see every request; others
see requests they created (`hr_user=request.user`) or requests for any
business where they are staff (`hr_business__in=business_pks`). -/
def hrListVisible (s : Store) (u : User) (v : VerificationRequest) : Bool :=
  u.is_superuser || v.hr_user == some u.pk ||
    (match v.hr_business with
     | some b => businessStaff s b u.pk
     | none => false)

/-- The per-row body of the `hr_request_list` loop: a visible row that is
`pending` and past its expiry is saved as `expired`. -/
def lazyExpire (now : Nat) (v : VerificationRequest) : VerificationRequest :=
  if v.status == Status.pending && is_expired now v then
    { v with status := Status.expired }
  else v

/-- `hr_request_list` (`core/views.py`): builds the visible queryset, lazily
expires its pending rows past their deadline, and renders the list.
The `order_by("-created_at")` is presentational and not modelled. -/
def hr_request_list (now : Nat) (u : User) (s : Store) :
    List VerificationRequest × Store :=
  let reqs := s.requests.map (fun v => if hrListVisible s u v then lazyExpire now v else v)
  (reqs.filter (hrListVisible s u), { s with requests := reqs })

/-- Outcome of `hr_request_status`: 404 or the rendered detail page. -/
inductive StatusPageResult where
  | notFound
  | page (vr : VerificationRequest)
deriving DecidableEq, Repr

/-- `hr_request_status` (`core/views.py`): detail page for one request,
lazily expiring it first when pending and past its deadline. -/
def hr_request_status (now : Nat) (pk : Nat) (s : Store) :
    StatusPageResult × Store :=
  match getReq s pk with
  | none => (StatusPageResult.notFound, s)
  | some vr =>
    if vr.status == Status.pending && is_expired now vr then
      (StatusPageResult.page { vr with status := Status.expired },
        { s with requests := saveRequest s.requests { vr with status := Status.expired } })
    else
      (StatusPageResult.page vr, s)

/-- Outcome of the two HR view endpoints: 404, `HttpResponseForbidden`, or
the rendered page carrying `can_view` and the certificate list. -/
inductive ViewResult where
  | notFound
  | forbidden
  | page (can_view : Bool) (certs : List Certificate)
deriving DecidableEq, Repr

/-- The `allowed` computation of `hr_view_request` (`core/views.py`):
superuser, or the original `hr_user`, or staff of `hr_business` when set. -/
def viewRequestAllowed (s : Store) (u : User) (vr : VerificationRequest) : Bool :=
  u.is_superuser || vr.hr_user == some u.pk ||
    (match vr.hr_business with
     | some b => businessStaff s b u.pk
     | none => false)

/-- `Certificate.objects.filter(owner_id_no=vr.id_no)`. -/
def certsFor (s : Store) (id_no : String) : List Certificate :=
  s.certificates.filter (fun c => c.owner_id_no == id_no)

/-- `hr_view_request` (`core/views.py`): authorization check, then
`can_view = status == confirmed and not is_expired()`; a successful view
returns the certificates, stamps `viewed_at = now` and appends an
`hr_viewed` audit entry. -/
def hr_view_request (now : Nat) (u : User) (pk : Nat) (s : Store) :
    ViewResult × Store :=
  match getReq s pk with
  | none => (ViewResult.notFound, s)
  | some vr =>
    if viewRequestAllowed s u vr then
      if vr.status == Status.confirmed && !(is_expired now vr) then
        (ViewResult.page true (certsFor s vr.id_no),
          { s with
              requests := saveRequest s.requests { vr with viewed_at := some now },
              audit := s.audit ++
                [{ user := some u.pk, action := "hr_viewed",
                   details := "HR viewed records for " ++ vr.id_no }] })
      else
        (ViewResult.page false [], s)
    else
      (ViewResult.forbidden, s)

/-- `hr_view_owner` (`institution/views.py`): same page, but only the
requesting `hr_user` or a superuser is allowed; business staff are not
considered here. -/
def hr_view_owner (now : Nat) (u : User) (pk : Nat) (s : Store) :
    ViewResult × Store :=
  match getReq s pk with
  | none => (ViewResult.notFound, s)
  | some vr =>
    if u.is_superuser || vr.hr_user == some u.pk then
      if vr.status == Status.confirmed && !(is_expired now vr) then
        (ViewResult.page true (certsFor s vr.id_no),
          { s with
              requests := saveRequest s.requests { vr with viewed_at := some now },
              audit := s.audit ++
                [{ user := some u.pk, action := "hr_viewed",
                   details := "HR viewed records for " ++ vr.id_no }] })
      else
        (ViewResult.page false [], s)
    else
      (ViewResult.forbidden, s)

/-- Outcome of `hr_verify`: the business-authorization error, the missing
owner-profile error, or the created request's key. -/
inductive CreateResult where
  | authErr
  | ownerNotFound
  | created (pk : Nat)
deriving DecidableEq, Repr

/-- `send_otp_to_owner` (`core/views.py`) as seen by the caller: e-mailing
may raise; the message content and console printing have no effect on the
store. `deliveryFails` models whether `send_mail` raises. -/
def send_otp_to_owner (deliveryFails : Bool) : Except Unit Unit :=
  if deliveryFails then Except.error () else Except.ok ()

/-- The row `VerificationRequest.objects.create(...)` builds in
`hr_verify`: pending, `otp_expires_at = now + 10 minutes`. -/
def newRequest (now : Nat) (u : User) (id_no : String) (business : Option Nat)
    (otp : String) (pk : Nat) : VerificationRequest :=
  { pk := pk, hr_user := some u.pk, hr_business := business, id_no := id_no,
    created_at := now, otp := otp, otp_expires_at := now + 10 * 60,
    status := Status.pending, confirmed_at := none, viewed_at := none, note := "" }

/-- `hr_verify` (`core/views.py`) on a valid form: rejects a selected
business the user may not act for, rejects an unknown owner `id_no`, and
otherwise persists a pending request, attempts OTP delivery (exceptions
caught, console fallback only), then appends the audit entry. -/
def hr_verify (now : Nat) (u : User) (id_no : String) (business : Option Nat)
    (otp : String) (deliveryFails : Bool) (s : Store) : CreateResult × Store :=
  if (match business with
      | some b => !(u.is_superuser || businessStaff s b u.pk)
      | none => false) then
    (CreateResult.authErr, s)
  else
    match s.owners.find? (fun o => o.id_no == id_no) with
    | none => (CreateResult.ownerNotFound, s)
    | some _owner =>
      let vr := newRequest now u id_no business otp s.nextPk
      let s1 := { s with requests := s.requests ++ [vr], nextPk := s.nextPk + 1 }
      let s2 := match send_otp_to_owner deliveryFails with
        | Except.ok _ => s1
        | Except.error _ => s1
      (CreateResult.created vr.pk,
        { s2 with audit := s2.audit ++
            [{ user := some u.pk, action := "requested_verification",
               details := "Requested verification for " ++ id_no }] })

/-- One store-mutating call to any of the endpoints that touch
`VerificationRequest` rows. -/
inductive Op where
  | confirm (id_no otp : String)
  | requestList (u : User)
  | requestStatus (pk : Nat)
  | viewRequest (u : User) (pk : Nat)
  | viewOwner (u : User) (pk : Nat)
  | verify (u : User) (id_no : String) (business : Option Nat) (otp : String)
      (deliveryFails : Bool)
deriving DecidableEq, Repr

/-- The store after one endpoint call. -/
def step (now : Nat) (op : Op) (s : Store) : Store :=
  match op with
  | Op.confirm id_no otp => (owner_confirm_otp now id_no otp s).2
  | Op.requestList u => (hr_request_list now u s).2
  | Op.requestStatus pk => (hr_request_status now pk s).2
  | Op.viewRequest u pk => (hr_view_request now u pk s).2
  | Op.viewOwner u pk => (hr_view_owner now u pk s).2
  | Op.verify u id_no b otp df => (hr_verify now u id_no b otp df s).2

/-- The store after a sequence of endpoint calls, each with its own
observation time. -/
def run (ops : List (Nat × Op)) (s : Store) : Store :=
  ops.foldl (fun st p => step p.1 p.2 st) s

/-- Database well-formedness: request primary keys are distinct and below
the next key to be handed out. -/
def WellFormed (s : Store) : Prop :=
  (s.requests.map (fun v => v.pk)).Nodup ∧ ∀ v ∈ s.requests, v.pk < s.nextPk

/-- The two endpoints that can stamp `viewed_at`. -/
def IsViewOp : Op → Prop
  | Op.viewRequest _ _ => True
  | Op.viewOwner _ _ => True
  | _ => False

/-- The spec's wording of `AuthorizeViewer(request, actor)`: superuser, or
the original `hr_user`, or a staff member of `hr_business` when it is set.
Stated separately from the code-derived `viewRequestAllowed` so the two
can be compared endpoint by endpoint. -/
def ViewerAuthorized (s : Store) (u : User) (vr : VerificationRequest) : Prop :=
  u.is_superuser = true ∨ vr.hr_user = some u.pk ∨
    ∃ b, vr.hr_business = some b ∧ businessStaff s b u.pk = true

/-- Concrete owner profile used by the counterexamples and witnesses. -/
def exOwner : OwnerProfile :=
  { id_no := "A123", full_name := "Ada Lovelace", mobile := "", email := "ada@example.com" }

/-- Concrete certificate matching `exOwner` by `owner_id_no`. -/
def exCert : Certificate :=
  { pk := 1, institution := 1, owner := some "A123", owner_id_no := "A123",
    owner_name := "Ada Lovelace", degree_name := "BSc" }

/-- Concrete non-superuser HR user. -/
def exHr : User := { pk := 7, is_superuser := false }

/-- Concrete pending request created by `exHr`, OTP deadline 100. -/
def exPendingVr : VerificationRequest :=
  { pk := 1, hr_user := some 7, hr_business := none, id_no := "A123", created_at := 0,
    otp := "123456", otp_expires_at := 100, status := Status.pending,
    confirmed_at := none, viewed_at := none, note := "" }

/-- Concrete store holding `exPendingVr`. -/
def exStoreA : Store :=
  { owners := [exOwner], businesses := [], certificates := [exCert],
    requests := [exPendingVr], audit := [], nextPk := 2 }

/-- Concrete business whose staff set is exactly user 2. -/
def exBiz : Business :=
  { pk := 10, name := "Acme", registration_number := "R1", staff := [2] }

/-- Concrete non-superuser user who is staff of `exBiz` (pk 2). -/
def exStaffUser : User := { pk := 2, is_superuser := false }

/-- Concrete confirmed, unexpired request created by user 1 on behalf of
`exBiz`. -/
def exConfirmedBizVr : VerificationRequest :=
  { pk := 3, hr_user := some 1, hr_business := some 10, id_no := "A123", created_at := 0,
    otp := "111111", otp_expires_at := 1000, status := Status.confirmed,
    confirmed_at := some 10, viewed_at := none, note := "" }

/-- Concrete store holding `exConfirmedBizVr` and `exBiz`. -/
def exStoreC3 : Store :=
  { owners := [exOwner], businesses := [exBiz], certificates := [exCert],
    requests := [exConfirmedBizVr], audit := [], nextPk := 4 }

/-- Concrete confirmed, unexpired request created by `exHr` with no
business and `viewed_at` still unset. -/
def exConfirmedVr : VerificationRequest :=
  { pk := 5, hr_user := some 7, hr_business := none, id_no := "A123", created_at := 0,
    otp := "333333", otp_expires_at := 1000, status := Status.confirmed,
    confirmed_at := some 20, viewed_at := none, note := "" }

/-- Concrete store holding `exConfirmedVr`. -/
def exStoreC7 : Store :=
  { owners := [exOwner], businesses := [], certificates := [exCert],
    requests := [exConfirmedVr], audit := [], nextPk := 6 }

/-- First of two pending requests sharing `id_no` and `otp`. -/
def exDupVr1 : VerificationRequest :=
  { pk := 11, hr_user := some 7, hr_business := none, id_no := "B9", created_at := 0,
    otp := "222222", otp_expires_at := 1000, status := Status.pending,
    confirmed_at := none, viewed_at := none, note := "" }

/-- Second, more recent pending request with the same `id_no` and `otp`. -/
def exDupVr2 : VerificationRequest :=
  { pk := 12, hr_user := some 7, hr_business := none, id_no := "B9", created_at := 1,
    otp := "222222", otp_expires_at := 1000, status := Status.pending,
    confirmed_at := none, viewed_at := none, note := "" }

/-- Concrete store holding the two duplicate-OTP pending requests. -/
def exStoreC4 : Store :=
  { owners := [], businesses := [], certificates := [],
    requests := [exDupVr1, exDupVr2], audit := [], nextPk := 13 }

/- ------------------------------------------------------------------ -/
/- Helper lemmas                                                       -/
/- ------------------------------------------------------------------ -/

/-- A `save` of a row whose key occurs in the table makes that key look up
the saved row. -/
lemma find_save (reqs : List VerificationRequest) (v2 : VerificationRequest)
    (hex : ∃ r ∈ reqs, r.pk = v2.pk) :
    (saveRequest reqs v2).find? (fun r => r.pk == v2.pk) = some v2 := by
  induction reqs with
  | nil =>
    obtain ⟨r, hr, _⟩ := hex
    cases hr
  | cons a l ih =>
    by_cases h : a.pk = v2.pk
    · have hcons : saveRequest (a :: l) v2 = v2 :: saveRequest l v2 := by
        simp [saveRequest, h]
      rw [hcons, List.find?_cons]
      simp
    · have hrest : ∃ r ∈ l, r.pk = v2.pk := by
        obtain ⟨r, hr, hrpk⟩ := hex
        rcases List.mem_cons.mp hr with rfl | hr2
        · exact absurd hrpk h
        · exact ⟨r, hr2, hrpk⟩
      have hcons : saveRequest (a :: l) v2 = a :: saveRequest l v2 := by
        simp [saveRequest, h]
      have hpa : (a.pk == v2.pk) = false := by simp [h]
      rw [hcons, List.find?_cons, hpa]
      exact ih hrest

/-- `pickLatest` returns an element of its input list. -/
lemma pickLatest_mem {l : List VerificationRequest} {v : VerificationRequest}
    (h : pickLatest l = some v) : v ∈ l := by
  induction l with
  | nil => cases h
  | cons a l ih =>
    simp only [pickLatest] at h
    cases hb : pickLatest l with
    | none =>
      rw [hb] at h
      cases h
      exact List.mem_cons_self _ _
    | some w =>
      rw [hb] at h
      by_cases hc : a.created_at < w.created_at
      · simp only [hc, if_true] at h
        cases h
        exact List.mem_cons_of_mem _ (ih hb)
      · simp only [hc, if_false] at h
        cases h
        exact List.mem_cons_self _ _

/-- Membership in the `owner_confirm_otp` queryset unpacks to membership in
the table plus the three filter conditions. -/
lemma pendingMatches_mem {reqs : List VerificationRequest} {id_no otp : String}
    {v : VerificationRequest} (h : v ∈ pendingMatches reqs id_no otp) :
    v ∈ reqs ∧ v.id_no = id_no ∧ v.otp = otp ∧ v.status = Status.pending := by
  have h2 := List.mem_filter.mp h
  have h3 := h2.2
  simp only [Bool.and_eq_true, beq_iff_eq] at h3
  exact ⟨h2.1, h3.1.1, h3.1.2, h3.2⟩

/-- Confirming (or otherwise retiring) the only request matching an
`(id_no, otp)` pair empties that pair's pending queryset. -/
lemma pendingMatches_after_save (reqs : List VerificationRequest) (id_no otp : String)
    (vr v2 : VerificationRequest) (hmatch : pendingMatches reqs id_no otp = [vr])
    (hpk : v2.pk = vr.pk) (hstat : v2.status ≠ Status.pending) :
    pendingMatches (saveRequest reqs v2) id_no otp = [] := by
  unfold pendingMatches
  rw [List.filter_eq_nil_iff]
  intro e he hpred
  obtain ⟨r, hr, hre⟩ := List.mem_map.mp he
  by_cases hc : r.pk = v2.pk
  · have he2 : e = v2 := by
      rw [← hre]
      simp [hc]
    subst he2
    simp only [Bool.and_eq_true, beq_iff_eq] at hpred
    exact hstat hpred.2
  · have he2 : e = r := by
      rw [← hre]
      simp [hc]
    subst he2
    have hrin : e ∈ pendingMatches reqs id_no otp := List.mem_filter.mpr ⟨hr, hpred⟩
    rw [hmatch] at hrin
    have hevr : e = vr := by simpa using hrin
    rw [hevr, ← hpk] at hc
    exact hc rfl

/-- The store an accepting `owner_confirm_otp` call produces, spelled out. -/
lemma owner_confirm_otp_accepted (now : Nat) (id_no otp : String) (s : Store)
    (vr : VerificationRequest)
    (hpick : pickLatest (pendingMatches s.requests id_no otp) = some vr)
    (hexp : is_expired now vr = false) :
    owner_confirm_otp now id_no otp s =
      (ConfirmResult.accepted,
       { s with
           requests := saveRequest s.requests (mark_confirmed now vr),
           audit := s.audit ++
             [{ user := none, action := "owner_confirmed",
                details := "Owner " ++ id_no ++ " confirmed request" }] }) := by
  simp [owner_confirm_otp, hpick, hexp]

/-- C1 amended: the list, detail, and owner-confirm read paths do transition
a pending, past-deadline request to `expired`, persist it, and reflect that
in what they return; the HR-view endpoints are the exception (see the
counterexample) — they only deny viewing without persisting. -/
theorem c1_lazy_expiry_amended (now : Nat) (s : Store) :
    (∀ u v, v ∈ s.requests → hrListVisible s u v = true → v.status = Status.pending →
      is_expired now v = true →
      { v with status := Status.expired } ∈ (hr_request_list now u s).2.requests ∧
      { v with status := Status.expired } ∈ (hr_request_list now u s).1) ∧
    (∀ pk vr, getReq s pk = some vr → vr.status = Status.pending →
      is_expired now vr = true →
      (hr_request_status now pk s).1 =
        StatusPageResult.page { vr with status := Status.expired } ∧
      getReq (hr_request_status now pk s).2 pk =
        some { vr with status := Status.expired }) ∧
    (∀ id_no otp vr, pickLatest (pendingMatches s.requests id_no otp) = some vr →
      is_expired now vr = true →
      (owner_confirm_otp now id_no otp s).1 = ConfirmResult.expiredOtp ∧
      getReq (owner_confirm_otp now id_no otp s).2 vr.pk =
        some { vr with status := Status.expired }) := by
  refine ⟨?_, ?_, ?_⟩
  · intro u v hv hvis hst hexp
    have hupd : (if hrListVisible s u v then lazyExpire now v else v) =
        { v with status := Status.expired } := by
      simp [hvis, lazyExpire, hst, hexp]
    have hmem : { v with status := Status.expired } ∈
        (s.requests.map (fun v => if hrListVisible s u v then lazyExpire now v else v)) := by
      have h2 := List.mem_map_of_mem
        (fun v => if hrListVisible s u v then lazyExpire now v else v) hv
      simpa only [hupd] using h2
    have hvis2 : hrListVisible s u { v with status := Status.expired } = true := hvis
    constructor
    · simpa [hr_request_list] using hmem
    · simp only [hr_request_list]
      exact List.mem_filter.mpr ⟨hmem, hvis2⟩
  · intro pk vr hget hst hexp
    have hpk : vr.pk = pk := by simpa using List.find?_some hget
    have hmem : vr ∈ s.requests := List.mem_of_find?_eq_some hget
    subst hpk
    have hguard : (vr.status == Status.pending && is_expired now vr) = true := by
      simp [hst, hexp]
    constructor
    · simp [hr_request_status, hget, hguard]
    · simp only [hr_request_status, hget, hguard, if_true]
      simpa [getReq] using
        find_save s.requests { vr with status := Status.expired } ⟨vr, hmem, rfl⟩
  · intro id_no otp vr hpick hexp
    have hmem := (pendingMatches_mem (pickLatest_mem hpick)).1
    constructor
    · simp [owner_confirm_otp, hpick, hexp]
    · simp only [owner_confirm_otp, hpick, hexp, if_true]
      simpa [getReq] using
        find_save s.requests { vr with status := Status.expired } ⟨vr, hmem, rfl⟩

/-- Witness for `c1_lazy_expiry_amended`: the detail page at time 200
persists the expiry of the concrete pending request (deadline 100). -/
theorem c1_lazy_expiry_amended_witness :
    getReq (hr_request_status 200 1 exStoreA).2 1 =
      some { exPendingVr with status := Status.expired } :=
  ((c1_lazy_expiry_amended 200 exStoreA).2.1 1 exPendingVr (by decide) (by decide)
    (by decide)).2

/-- The code's `allowed` computation in `hr_view_request` coincides with the
spec's `AuthorizeViewer` predicate. -/
lemma viewRequestAllowed_iff (s : Store) (u : User) (vr : VerificationRequest) :
    viewRequestAllowed s u vr = true ↔ ViewerAuthorized s u vr := by
  unfold viewRequestAllowed ViewerAuthorized
  cases hb : vr.hr_business with
  | none => simp [hb]
  | some b => simp [hb, or_assoc]

/-- C3 amended: `hr_view_request` denies exactly the actors outside the
spec's `AuthorizeViewer` set (superuser, original `hr_user`, staff of
`hr_business`), but `hr_view_owner` denies everyone except a superuser or
the original `hr_user` — business staff are not granted there. -/
theorem c3_viewer_authorization_amended (now : Nat) (u : User) (pk : Nat) (s : Store)
    (vr : VerificationRequest) (hget : getReq s pk = some vr) :
    ((hr_view_request now u pk s).1 = ViewResult.forbidden ↔ ¬ ViewerAuthorized s u vr) ∧
    ((hr_view_owner now u pk s).1 = ViewResult.forbidden ↔
      ¬ (u.is_superuser = true ∨ vr.hr_user = some u.pk)) := by
  constructor
  · rw [← viewRequestAllowed_iff]
    by_cases ha : viewRequestAllowed s u vr = true
    · have hne : (hr_view_request now u pk s).1 ≠ ViewResult.forbidden := by
        by_cases hc : (vr.status == Status.confirmed && !(is_expired now vr)) = true
        · simp [hr_view_request, hget, ha, hc]
        · simp [hr_view_request, hget, ha, hc]
      simp [hne, ha]
    · have hf : viewRequestAllowed s u vr = false := by simpa using ha
      have heq : (hr_view_request now u pk s).1 = ViewResult.forbidden := by
        simp [hr_view_request, hget, hf]
      simp [heq, hf]
  · by_cases ha : (u.is_superuser || vr.hr_user == some u.pk) = true
    · have hprop : u.is_superuser = true ∨ vr.hr_user = some u.pk := by
        simpa using ha
      have hne : (hr_view_owner now u pk s).1 ≠ ViewResult.forbidden := by
        by_cases hc : (vr.status == Status.confirmed && !(is_expired now vr)) = true
        · simp [hr_view_owner, hget, ha, hc]
        · simp [hr_view_owner, hget, ha, hc]
      simp [hne, hprop]
    · have hf : (u.is_superuser || vr.hr_user == some u.pk) = false := by simpa using ha
      have hprop : ¬ (u.is_superuser = true ∨ vr.hr_user = some u.pk) := by
        simpa using hf
      have heq : (hr_view_owner now u pk s).1 = ViewResult.forbidden := by
        simp [hr_view_owner, hget, hf]
      simp [heq, hprop]

/-- Witness for `c3_viewer_authorization_amended`: business staff user 2 is
refused by `hr_view_owner` yet admitted by `hr_view_request` on the same
request. -/
theorem c3_viewer_authorization_amended_witness :
    (hr_view_owner 50 exStaffUser 3 exStoreC3).1 = ViewResult.forbidden ∧
    ¬ ((hr_view_request 50 exStaffUser 3 exStoreC3).1 = ViewResult.forbidden) := by
  have h := c3_viewer_authorization_amended 50 exStaffUser 3 exStoreC3 exConfirmedBizVr
    (by decide)
  constructor
  · exact h.2.mpr (by decide)
  · intro habs
    exact (h.1.mp habs) (Or.inr (Or.inr ⟨10, by decide, by decide⟩))

/-- C4 amended: a `Confirm` with no matching pending request fails with the
uniform NotFound outcome and changes no stored state, whatever the cause;
and after a successful confirmation a second `Confirm` with the same
credentials fails with NotFound provided the confirmed row was the only
pending match — the confirmed row itself never matches again, but another
pending request sharing the same `id_no` and OTP would be confirmed
instead (see the counterexample). -/
theorem c4_confirm_not_found_amended (now : Nat) (id_no otp : String) (s : Store) :
    (pickLatest (pendingMatches s.requests id_no otp) = none →
      owner_confirm_otp now id_no otp s = (ConfirmResult.notFound, s)) ∧
    (∀ vr, pendingMatches s.requests id_no otp = [vr] → is_expired now vr = false →
      (owner_confirm_otp now id_no otp s).1 = ConfirmResult.accepted ∧
      ∀ now2, owner_confirm_otp now2 id_no otp (owner_confirm_otp now id_no otp s).2 =
        (ConfirmResult.notFound, (owner_confirm_otp now id_no otp s).2)) := by
  constructor
  · intro hpick
    simp [owner_confirm_otp, hpick]
  · intro vr hmatch hexp
    have hpick : pickLatest (pendingMatches s.requests id_no otp) = some vr := by
      rw [hmatch]
      rfl
    have hres := owner_confirm_otp_accepted now id_no otp s vr hpick hexp
    refine ⟨by rw [hres], ?_⟩
    intro now2
    have hpend : vr.status = Status.pending := by
      have : vr ∈ pendingMatches s.requests id_no otp := by
        rw [hmatch]
        exact List.mem_cons_self _ _
      exact (pendingMatches_mem this).2.2.2
    have hempty : pendingMatches (saveRequest s.requests (mark_confirmed now vr))
        id_no otp = [] := by
      apply pendingMatches_after_save s.requests id_no otp vr (mark_confirmed now vr)
        hmatch rfl
      simp [mark_confirmed]
    rw [hres]
    simp [owner_confirm_otp, hempty, pickLatest]

/-- Witness for `c4_confirm_not_found_amended`: with a single matching
pending request, the first confirmation is accepted and a repeat attempt
fails with NotFound and leaves the store as the first call did. -/
theorem c4_confirm_not_found_amended_witness :
    (owner_confirm_otp 5 "A123" "123456" exStoreA).1 = ConfirmResult.accepted ∧
    owner_confirm_otp 6 "A123" "123456" (owner_confirm_otp 5 "A123" "123456" exStoreA).2 =
      (ConfirmResult.notFound, (owner_confirm_otp 5 "A123" "123456" exStoreA).2) := by
  have h := (c4_confirm_not_found_amended 5 "A123" "123456" exStoreA).2 exPendingVr
    (by decide) (by decide)
  exact ⟨h.1, h.2 6⟩

/-- C5: when `Confirm` finds the most recent matching pending request, an
expired one is persisted as `expired` with the Expired outcome,
`confirmed_at` untouched and no audit entry; an unexpired one is persisted
via `mark_confirmed` (status `confirmed`, `confirmed_at = now`) with an
audit entry attributed to no user. -/
theorem c5_confirm_outcomes (now : Nat) (id_no otp : String) (s : Store)
    (vr : VerificationRequest)
    (hpick : pickLatest (pendingMatches s.requests id_no otp) = some vr) :
    (is_expired now vr = true →
      (owner_confirm_otp now id_no otp s).1 = ConfirmResult.expiredOtp ∧
      getReq (owner_confirm_otp now id_no otp s).2 vr.pk =
        some { vr with status := Status.expired } ∧
      ({ vr with status := Status.expired }).confirmed_at = vr.confirmed_at ∧
      (owner_confirm_otp now id_no otp s).2.audit = s.audit) ∧
    (is_expired now vr = false →
      (owner_confirm_otp now id_no otp s).1 = ConfirmResult.accepted ∧
      getReq (owner_confirm_otp now id_no otp s).2 vr.pk = some (mark_confirmed now vr) ∧
      (mark_confirmed now vr).status = Status.confirmed ∧
      (mark_confirmed now vr).confirmed_at = some now ∧
      (owner_confirm_otp now id_no otp s).2.audit =
        s.audit ++ [{ user := none, action := "owner_confirmed",
                      details := "Owner " ++ id_no ++ " confirmed request" }]) := by
  have hmem := (pendingMatches_mem (pickLatest_mem hpick)).1
  constructor
  · intro hexp
    refine ⟨?_, ?_, rfl, ?_⟩
    · simp [owner_confirm_otp, hpick, hexp]
    · simp only [owner_confirm_otp, hpick, hexp, if_true]
      simpa [getReq] using
        find_save s.requests { vr with status := Status.expired } ⟨vr, hmem, rfl⟩
    · simp [owner_confirm_otp, hpick, hexp]
  · intro hexp
    have hres := owner_confirm_otp_accepted now id_no otp s vr hpick hexp
    refine ⟨by rw [hres], ?_, rfl, rfl, by rw [hres]⟩
    rw [hres]
    simpa [getReq, mark_confirmed] using
      find_save s.requests (mark_confirmed now vr) ⟨vr, hmem, rfl⟩

/-- Witness for `c5_confirm_outcomes`: the concrete pending request
(deadline 100) yields Expired at time 200 and acceptance at time 50. -/
theorem c5_confirm_outcomes_witness :
    (owner_confirm_otp 200 "A123" "123456" exStoreA).1 = ConfirmResult.expiredOtp ∧
    (owner_confirm_otp 50 "A123" "123456" exStoreA).1 = ConfirmResult.accepted := by
  have h := c5_confirm_outcomes 200 "A123" "123456" exStoreA exPendingVr (by decide)
  have h2 := c5_confirm_outcomes 50 "A123" "123456" exStoreA exPendingVr (by decide)
  exact ⟨(h.1 (by decide)).1, (h2.2 (by decide)).1⟩

/-- C10: expiry is decided by the strict comparison `now > otp_expires_at`;
a request observed exactly at its `otp_expires_at` instant is unexpired and
can still be confirmed (`owner_confirm_otp` accepts) and viewed
(`hr_view_request` returns the certificates) at that instant. -/
theorem c10_expiry_strict (vr : VerificationRequest) (now : Nat) :
    (is_expired now vr = true ↔ vr.otp_expires_at < now) ∧
    is_expired vr.otp_expires_at vr = false ∧
    (∀ id_no otp s, pickLatest (pendingMatches s.requests id_no otp) = some vr →
      (owner_confirm_otp vr.otp_expires_at id_no otp s).1 = ConfirmResult.accepted) ∧
    (∀ u pk s, getReq s pk = some vr → viewRequestAllowed s u vr = true →
      vr.status = Status.confirmed →
      (hr_view_request vr.otp_expires_at u pk s).1 =
        ViewResult.page true (certsFor s vr.id_no)) := by
  refine ⟨by simp [is_expired], by simp [is_expired], ?_, ?_⟩
  · intro id_no otp s hpick
    simp [owner_confirm_otp, hpick, is_expired]
  · intro u pk s hget hallow hst
    simp [hr_view_request, hget, hallow, hst, is_expired]

/-- Witness for `c10_expiry_strict`: at its exact OTP deadline (time 100),
the concrete pending request is still accepted by `owner_confirm_otp`. -/
theorem c10_expiry_strict_witness :
    (owner_confirm_otp 100 "A123" "123456" exStoreA).1 = ConfirmResult.accepted :=
  (c10_expiry_strict exPendingVr 100).2.2.1 "A123" "123456" exStoreA (by decide)

/-- C2: on both HR view endpoints, for an authorized actor the owner's
certificates (all rows whose `owner_id_no` equals the request's `id_no`)
are returned exactly when the request is `confirmed` and not expired at the
moment of the call; otherwise the page carries `can_view = false` and no
certificates. -/
theorem c2_view_gate (now : Nat) (u : User) (pk : Nat) (s : Store)
    (vr : VerificationRequest) (hget : getReq s pk = some vr) :
    (viewRequestAllowed s u vr = true →
      (hr_view_request now u pk s).1 =
        ViewResult.page (vr.status == Status.confirmed && !(is_expired now vr))
          (if vr.status == Status.confirmed && !(is_expired now vr) then
            certsFor s vr.id_no else []) ∧
      ((hr_view_request now u pk s).1 = ViewResult.page true (certsFor s vr.id_no) ↔
        vr.status = Status.confirmed ∧ is_expired now vr = false)) ∧
    ((u.is_superuser || vr.hr_user == some u.pk) = true →
      (hr_view_owner now u pk s).1 =
        ViewResult.page (vr.status == Status.confirmed && !(is_expired now vr))
          (if vr.status == Status.confirmed && !(is_expired now vr) then
            certsFor s vr.id_no else []) ∧
      ((hr_view_owner now u pk s).1 = ViewResult.page true (certsFor s vr.id_no) ↔
        vr.status = Status.confirmed ∧ is_expired now vr = false)) := by
  constructor
  · intro hallow
    by_cases hc : (vr.status == Status.confirmed && !(is_expired now vr)) = true
    · have hc2 := hc
      simp only [Bool.and_eq_true, beq_iff_eq, Bool.not_eq_eq_eq_not, Bool.not_true] at hc2
      constructor
      · simp [hr_view_request, hget, hallow, hc]
      · simp [hr_view_request, hget, hallow, hc, hc2.1, hc2.2]
    · have hc2 := hc
      simp only [Bool.and_eq_true, beq_iff_eq, Bool.not_eq_eq_eq_not, Bool.not_true,
        not_and] at hc2
      constructor
      · simp [hr_view_request, hget, hallow, hc]
      · constructor
        · intro habs
          simp [hr_view_request, hget, hallow, hc] at habs
        · intro ⟨h1, h2⟩
          exact absurd (hc2 h1) (by simp [h2])
  · intro hallow
    by_cases hc : (vr.status == Status.confirmed && !(is_expired now vr)) = true
    · have hc2 := hc
      simp only [Bool.and_eq_true, beq_iff_eq, Bool.not_eq_eq_eq_not, Bool.not_true] at hc2
      constructor
      · simp [hr_view_owner, hget, hallow, hc]
      · simp [hr_view_owner, hget, hallow, hc, hc2.1, hc2.2]
    · have hc2 := hc
      simp only [Bool.and_eq_true, beq_iff_eq, Bool.not_eq_eq_eq_not, Bool.not_true,
        not_and] at hc2
      constructor
      · simp [hr_view_owner, hget, hallow, hc]
      · constructor
        · intro habs
          simp [hr_view_owner, hget, hallow, hc] at habs
        · intro ⟨h1, h2⟩
          exact absurd (hc2 h1) (by simp [h2])

/-- Witness for `c2_view_gate`: the confirmed, unexpired concrete request
viewed at time 50 yields the matching certificate list. -/
theorem c2_view_gate_witness :
    (hr_view_request 50 exHr 5 exStoreC7).1 =
      ViewResult.page true (certsFor exStoreC7 "A123") :=
  ((c2_view_gate 50 exHr 5 exStoreC7 exConfirmedVr (by decide)).1 (by decide)).2.mpr
    (by decide)

/-- C8: `hr_verify` fails and creates nothing when the selected business is
one the user may not act for (authorization error), or when no
`OwnerProfile` with the given `id_no` exists (not-found error); in both
cases the store is returned unchanged. -/
theorem c8_create_preconditions (now : Nat) (u : User) (id_no : String)
    (business : Option Nat) (otp : String) (df : Bool) (s : Store) :
    (∀ b, business = some b → (u.is_superuser || businessStaff s b u.pk) = false →
      hr_verify now u id_no business otp df s = (CreateResult.authErr, s)) ∧
    ((business = none ∨
        ∃ b, business = some b ∧ (u.is_superuser || businessStaff s b u.pk) = true) →
      s.owners.find? (fun o => o.id_no == id_no) = none →
      hr_verify now u id_no business otp df s = (CreateResult.ownerNotFound, s)) := by
  constructor
  · intro b hb hval
    subst hb
    simp [hr_verify, hval]
  · intro hb hown
    rcases hb with h | ⟨b, hb, hval⟩
    · subst h
      simp [hr_verify, hown]
    · subst hb
      simp [hr_verify, hval, hown]

/-- Witness for `c8_create_preconditions`: an unknown owner id yields the
not-found error and leaves the concrete store unchanged. -/
theorem c8_create_preconditions_witness :
    hr_verify 0 exHr "ZZZ" none "654321" false exStoreA =
      (CreateResult.ownerNotFound, exStoreA) :=
  (c8_create_preconditions 0 exHr "ZZZ" none "654321" false exStoreA).2
    (Or.inl rfl) (by decide)

/-- C9: when the business check passes and the owner exists, `hr_verify`
persists the pending request and appends its audit entry identically
whether or not OTP delivery raises: the delivery failure is swallowed. -/
theorem c9_create_survives_delivery_failure (now : Nat) (u : User) (id_no : String)
    (business : Option Nat) (otp : String) (s : Store)
    (hb : (match business with
           | some b => u.is_superuser || businessStaff s b u.pk
           | none => true) = true)
    (o : OwnerProfile) (hown : s.owners.find? (fun o2 => o2.id_no == id_no) = some o) :
    ∀ deliveryFails : Bool,
      hr_verify now u id_no business otp deliveryFails s =
        (CreateResult.created s.nextPk,
         { s with
             requests := s.requests ++ [newRequest now u id_no business otp s.nextPk],
             nextPk := s.nextPk + 1,
             audit := s.audit ++
               [{ user := some u.pk, action := "requested_verification",
                  details := "Requested verification for " ++ id_no }] }) ∧
      (newRequest now u id_no business otp s.nextPk).status = Status.pending := by
  intro df
  refine ⟨?_, rfl⟩
  cases business with
  | none =>
    cases df <;> simp [hr_verify, hown, send_otp_to_owner, newRequest]
  | some b =>
    simp only at hb
    cases df <;> simp [hr_verify, hb, hown, send_otp_to_owner, newRequest]

/-- Witness for `c9_create_survives_delivery_failure`: creating a request
for the registered concrete owner succeeds even when delivery raises. -/
theorem c9_create_survives_delivery_failure_witness :
    (hr_verify 0 exHr "A123" none "654321" true exStoreA).1 =
      CreateResult.created 2 :=
  by
    have h := c9_create_survives_delivery_failure 0 exHr "A123" none "654321" exStoreA
      (by decide) exOwner (by decide) true
    rw [h.1]
    rfl

/-- C1 fails on the HR-view read path: at time 200 the concrete request is
pending and past its deadline (100), yet both HR view endpoints return the
store entirely unchanged — the expired status is neither persisted nor
shown; the stored row is still `pending`. -/
theorem c1_hr_view_no_expiry_persist_cex :
    exPendingVr.status = Status.pending ∧
    is_expired 200 exPendingVr = true ∧
    (hr_view_request 200 exHr 1 exStoreA).2 = exStoreA ∧
    (hr_view_owner 200 exHr 1 exStoreA).2 = exStoreA ∧
    getReq (hr_view_request 200 exHr 1 exStoreA).2 1 = some exPendingVr := by
  decide

/-- C3 fails on the institution endpoint: user 2 is staff of the request's
business (pk 10), not a superuser and not the original requester; the core
endpoint grants the view, but `hr_view_owner` answers 403. -/
theorem c3_view_owner_denies_staff_cex :
    exStaffUser.is_superuser = false ∧
    exConfirmedBizVr.hr_user ≠ some exStaffUser.pk ∧
    exConfirmedBizVr.hr_business = some exBiz.pk ∧
    businessStaff exStoreC3 exBiz.pk exStaffUser.pk = true ∧
    (hr_view_request 50 exStaffUser 3 exStoreC3).1 =
      ViewResult.page true (certsFor exStoreC3 "A123") ∧
    (hr_view_owner 50 exStaffUser 3 exStoreC3).1 = ViewResult.forbidden := by
  decide

/-- C4's second-confirm sentence fails when two pending requests share the
same `id_no` and OTP: after the first confirmation succeeds, a second
confirmation with the same credentials is accepted again (it confirms the
other pending row) instead of failing with NotFound. -/
theorem c4_second_confirm_cex :
    (owner_confirm_otp 5 "B9" "222222" exStoreC4).1 = ConfirmResult.accepted ∧
    (owner_confirm_otp 6 "B9" "222222"
        (owner_confirm_otp 5 "B9" "222222" exStoreC4).2).1 = ConfirmResult.accepted ∧
    (owner_confirm_otp 6 "B9" "222222"
        (owner_confirm_otp 5 "B9" "222222" exStoreC4).2).1 ≠ ConfirmResult.notFound := by
  decide

/-- C7 fails: two successful views of the same confirmed, unexpired request
at times 50 and then 60 each write `viewed_at`; the second view overwrites
the value set by the first, so `viewed_at` is not written at most once. -/
theorem c7_viewed_at_overwritten_cex :
    exConfirmedVr.viewed_at = none ∧
    getReq (hr_view_request 50 exHr 5 exStoreC7).2 5 =
      some { exConfirmedVr with viewed_at := some 50 } ∧
    getReq (hr_view_request 60 exHr 5 (hr_view_request 50 exHr 5 exStoreC7).2).2 5 =
      some { exConfirmedVr with viewed_at := some 60 } := by
  decide

/-- Elementwise effect of a `save` under distinct primary keys: every row
keeps its key, and is either untouched or — when it is the saved row's
target — replaced by the saved row. -/
lemma saveRequest_evolution {reqs : List VerificationRequest}
    (hnd : (reqs.map (fun r => r.pk)).Nodup)
    {vr v2 : VerificationRequest} (hvr : vr ∈ reqs) (hpk : v2.pk = vr.pk) :
    ∀ v ∈ reqs, ∃ w ∈ saveRequest reqs v2, w.pk = v.pk ∧
      (w = v ∨ (v = vr ∧ w = v2)) := by
  intro v hv
  by_cases h : v.pk = v2.pk
  · have hveq : v = vr := List.inj_on_of_nodup_map hnd hv hvr (by rw [h, hpk])
    refine ⟨v2, ?_, by rw [hpk, ← hveq], Or.inr ⟨hveq, rfl⟩⟩
    have h2 := List.mem_map_of_mem (fun r => if r.pk == v2.pk then v2 else r) hv
    simpa [saveRequest, h] using h2
  · refine ⟨v, ?_, rfl, Or.inl rfl⟩
    have h2 := List.mem_map_of_mem (fun r => if r.pk == v2.pk then v2 else r) hv
    simpa [saveRequest, h] using h2

/-- A saved row whose status and `viewed_at` evolve legally induces a legal
elementwise evolution of the whole table. -/
lemma save_branch_evolution (now : Nat) (Q : Prop) {reqs : List VerificationRequest}
    (hnd : (reqs.map (fun r => r.pk)).Nodup)
    (vr v2 : VerificationRequest) (hvr : vr ∈ reqs) (hpk : v2.pk = vr.pk)
    (hstat : v2.status = vr.status ∨ vr.status = Status.pending)
    (hview : v2.viewed_at = vr.viewed_at ∨
      (v2.viewed_at = some now ∧ vr.status = Status.confirmed ∧
       is_expired now vr = false ∧ Q)) :
    ∀ v ∈ reqs, ∃ w ∈ saveRequest reqs v2, w.pk = v.pk ∧
      (w.status = v.status ∨ v.status = Status.pending) ∧
      (w.viewed_at = v.viewed_at ∨
        (w.viewed_at = some now ∧ v.status = Status.confirmed ∧
         is_expired now v = false ∧ Q)) := by
  intro v hv
  obtain ⟨w, hw, hwpk, hcase⟩ := saveRequest_evolution hnd hvr hpk v hv
  rcases hcase with heq | ⟨hveq, hweq⟩
  · exact ⟨w, hw, hwpk, Or.inl (by rw [heq]), Or.inl (by rw [heq])⟩
  · refine ⟨w, hw, hwpk, ?_, ?_⟩
    · rw [hweq, hveq]
      exact hstat
    · rw [hweq, hveq]
      exact hview

/-- The primary key survives the lazy-expiry rewrite. -/
lemma lazyExpire_pk (now : Nat) (v : VerificationRequest) :
    (lazyExpire now v).pk = v.pk := by
  by_cases h : (v.status == Status.pending && is_expired now v) = true <;>
    simp [lazyExpire, h]

/-- Lazy expiry changes the status only of pending rows. -/
lemma lazyExpire_status (now : Nat) (v : VerificationRequest) :
    (lazyExpire now v).status = v.status ∨ v.status = Status.pending := by
  by_cases h : (v.status == Status.pending && is_expired now v) = true
  · right
    have h2 := h
    simp only [Bool.and_eq_true, beq_iff_eq] at h2
    exact h2.1
  · left
    simp [lazyExpire, h]

/-- Lazy expiry never touches `viewed_at`. -/
lemma lazyExpire_viewed (now : Nat) (v : VerificationRequest) :
    (lazyExpire now v).viewed_at = v.viewed_at := by
  by_cases h : (v.status == Status.pending && is_expired now v) = true <;>
    simp [lazyExpire, h]

/-- One endpoint call evolves every stored request legally: the key is
kept, the status either stays or leaves `pending`, and `viewed_at` changes
only to `now` on a view endpoint whose target is confirmed and unexpired. -/
lemma step_request_evolution (now : Nat) (op : Op) (s : Store)
    (hnd : (s.requests.map (fun r => r.pk)).Nodup) :
    ∀ v ∈ s.requests, ∃ w ∈ (step now op s).requests, w.pk = v.pk ∧
      (w.status = v.status ∨ v.status = Status.pending) ∧
      (w.viewed_at = v.viewed_at ∨
        (w.viewed_at = some now ∧ v.status = Status.confirmed ∧
         is_expired now v = false ∧ IsViewOp op)) := by
  intro v hv
  cases op with
  | confirm id_no otp =>
    cases hpick : pickLatest (pendingMatches s.requests id_no otp) with
    | none =>
      exact ⟨v, by simpa [step, owner_confirm_otp, hpick] using hv, rfl,
        Or.inl rfl, Or.inl rfl⟩
    | some vr =>
      have hfacts := pendingMatches_mem (pickLatest_mem hpick)
      by_cases hexp : is_expired now vr = true
      · have hreq : (step now (Op.confirm id_no otp) s).requests =
            saveRequest s.requests { vr with status := Status.expired } := by
          simp [step, owner_confirm_otp, hpick, hexp]
        obtain ⟨w, hw, hwpk, hst, hvw⟩ :=
          save_branch_evolution now (IsViewOp (Op.confirm id_no otp)) hnd vr
            { vr with status := Status.expired } hfacts.1 rfl
            (Or.inr hfacts.2.2.2) (Or.inl rfl) v hv
        exact ⟨w, by rw [hreq]; exact hw, hwpk, hst, hvw⟩
      · have hexp2 : is_expired now vr = false := by simpa using hexp
        have hreq : (step now (Op.confirm id_no otp) s).requests =
            saveRequest s.requests (mark_confirmed now vr) := by
          simp [step, owner_confirm_otp, hpick, hexp2]
        obtain ⟨w, hw, hwpk, hst, hvw⟩ :=
          save_branch_evolution now (IsViewOp (Op.confirm id_no otp)) hnd vr
            (mark_confirmed now vr) hfacts.1 rfl
            (Or.inr hfacts.2.2.2) (Or.inl rfl) v hv
        exact ⟨w, by rw [hreq]; exact hw, hwpk, hst, hvw⟩
  | requestList u =>
    have hmem := List.mem_map_of_mem
      (fun v => if hrListVisible s u v then lazyExpire now v else v) hv
    refine ⟨if hrListVisible s u v then lazyExpire now v else v, ?_, ?_, ?_, Or.inl ?_⟩
    · simpa [step, hr_request_list] using hmem
    · by_cases hvis : hrListVisible s u v = true <;> simp [hvis, lazyExpire_pk]
    · by_cases hvis : hrListVisible s u v = true
      · simpa [hvis] using lazyExpire_status now v
      · simp [hvis]
    · by_cases hvis : hrListVisible s u v = true <;> simp [hvis, lazyExpire_viewed]
  | requestStatus pk0 =>
    cases hget : getReq s pk0 with
    | none =>
      exact ⟨v, by simpa [step, hr_request_status, hget] using hv, rfl,
        Or.inl rfl, Or.inl rfl⟩
    | some vr =>
      by_cases hcond : (vr.status == Status.pending && is_expired now vr) = true
      · have hreq : (step now (Op.requestStatus pk0) s).requests =
            saveRequest s.requests { vr with status := Status.expired } := by
          simp [step, hr_request_status, hget, hcond]
        have hpend : vr.status = Status.pending := by
          have h2 := hcond
          simp only [Bool.and_eq_true, beq_iff_eq] at h2
          exact h2.1
        obtain ⟨w, hw, hwpk, hst, hvw⟩ :=
          save_branch_evolution now (IsViewOp (Op.requestStatus pk0)) hnd vr
            { vr with status := Status.expired }
            (List.mem_of_find?_eq_some hget) rfl (Or.inr hpend) (Or.inl rfl) v hv
        exact ⟨w, by rw [hreq]; exact hw, hwpk, hst, hvw⟩
      · exact ⟨v, by simpa [step, hr_request_status, hget, hcond] using hv, rfl,
          Or.inl rfl, Or.inl rfl⟩
  | viewRequest u pk0 =>
    cases hget : getReq s pk0 with
    | none =>
      exact ⟨v, by simpa [step, hr_view_request, hget] using hv, rfl,
        Or.inl rfl, Or.inl rfl⟩
    | some vr =>
      by_cases hallow : viewRequestAllowed s u vr = true
      · by_cases hcv : (vr.status == Status.confirmed && !(is_expired now vr)) = true
        · have hreq : (step now (Op.viewRequest u pk0) s).requests =
              saveRequest s.requests { vr with viewed_at := some now } := by
            simp [step, hr_view_request, hget, hallow, hcv]
          have hc2 : vr.status = Status.confirmed ∧ is_expired now vr = false := by
            have h2 := hcv
            simp only [Bool.and_eq_true, beq_iff_eq, Bool.not_eq_true'] at h2
            exact h2
          obtain ⟨w, hw, hwpk, hst, hvw⟩ :=
            save_branch_evolution now (IsViewOp (Op.viewRequest u pk0)) hnd vr
              { vr with viewed_at := some now }
              (List.mem_of_find?_eq_some hget) rfl (Or.inl rfl)
              (Or.inr ⟨rfl, hc2.1, hc2.2, trivial⟩) v hv
          exact ⟨w, by rw [hreq]; exact hw, hwpk, hst, hvw⟩
        · exact ⟨v, by simpa [step, hr_view_request, hget, hallow, hcv] using hv, rfl,
            Or.inl rfl, Or.inl rfl⟩
      · exact ⟨v, by simpa [step, hr_view_request, hget, hallow] using hv, rfl,
          Or.inl rfl, Or.inl rfl⟩
  | viewOwner u pk0 =>
    cases hget : getReq s pk0 with
    | none =>
      exact ⟨v, by simpa [step, hr_view_owner, hget] using hv, rfl,
        Or.inl rfl, Or.inl rfl⟩
    | some vr =>
      by_cases hallow : (u.is_superuser || vr.hr_user == some u.pk) = true
      · by_cases hcv : (vr.status == Status.confirmed && !(is_expired now vr)) = true
        · have hreq : (step now (Op.viewOwner u pk0) s).requests =
              saveRequest s.requests { vr with viewed_at := some now } := by
            simp [step, hr_view_owner, hget, hallow, hcv]
          have hc2 : vr.status = Status.confirmed ∧ is_expired now vr = false := by
            have h2 := hcv
            simp only [Bool.and_eq_true, beq_iff_eq, Bool.not_eq_true'] at h2
            exact h2
          obtain ⟨w, hw, hwpk, hst, hvw⟩ :=
            save_branch_evolution now (IsViewOp (Op.viewOwner u pk0)) hnd vr
              { vr with viewed_at := some now }
              (List.mem_of_find?_eq_some hget) rfl (Or.inl rfl)
              (Or.inr ⟨rfl, hc2.1, hc2.2, trivial⟩) v hv
          exact ⟨w, by rw [hreq]; exact hw, hwpk, hst, hvw⟩
        · exact ⟨v, by simpa [step, hr_view_owner, hget, hallow, hcv] using hv, rfl,
            Or.inl rfl, Or.inl rfl⟩
      · exact ⟨v, by simpa [step, hr_view_owner, hget, hallow] using hv, rfl,
          Or.inl rfl, Or.inl rfl⟩
  | verify u id_no business otp df =>
    by_cases hguard : (match business with
        | some b => !(u.is_superuser || businessStaff s b u.pk)
        | none => false) = true
    · refine ⟨v, ?_, rfl, Or.inl rfl, Or.inl rfl⟩
      show v ∈ (hr_verify now u id_no business otp df s).2.requests
      unfold hr_verify
      rw [if_pos hguard]
      exact hv
    · cases hown : s.owners.find? (fun o => o.id_no == id_no) with
      | none =>
        refine ⟨v, ?_, rfl, Or.inl rfl, Or.inl rfl⟩
        show v ∈ (hr_verify now u id_no business otp df s).2.requests
        unfold hr_verify
        rw [if_neg hguard, hown]
        exact hv
      | some o =>
        have hreq : (step now (Op.verify u id_no business otp df) s).requests =
            s.requests ++ [newRequest now u id_no business otp s.nextPk] := by
          show (hr_verify now u id_no business otp df s).2.requests = _
          unfold hr_verify
          rw [if_neg hguard, hown]
          cases df <;> rfl
        exact ⟨v, by rw [hreq]; exact List.mem_append_left _ hv, rfl,
          Or.inl rfl, Or.inl rfl⟩

/-- A `save` permutes no keys: the key column is unchanged. -/
lemma pk_map_save (reqs : List VerificationRequest) (v2 : VerificationRequest) :
    (saveRequest reqs v2).map (fun r => r.pk) = reqs.map (fun r => r.pk) := by
  unfold saveRequest
  rw [List.map_map]
  apply List.map_congr_left
  intro a ha
  by_cases h : a.pk = v2.pk <;> simp [h]

/-- The lazy-expiry pass of `hr_request_list` keeps the key column. -/
lemma pk_map_lazy_list (now : Nat) (u : User) (s : Store) :
    ((s.requests.map (fun v => if hrListVisible s u v then lazyExpire now v else v)).map
      (fun r => r.pk)) = s.requests.map (fun r => r.pk) := by
  rw [List.map_map]
  apply List.map_congr_left
  intro a ha
  by_cases h : hrListVisible s u a = true <;> simp [h, lazyExpire_pk]

/-- A store whose key column and key counter agree with a well-formed store
is itself well formed. -/
lemma wf_of_pk_map_eq (s : Store) (hwf : WellFormed s) (s2 : Store)
    (hmap : s2.requests.map (fun r => r.pk) = s.requests.map (fun r => r.pk))
    (hnext : s2.nextPk = s.nextPk) : WellFormed s2 := by
  obtain ⟨hnd, hbound⟩ := hwf
  constructor
  · rw [hmap]
    exact hnd
  · intro v hv
    have hmem : v.pk ∈ s2.requests.map (fun r => r.pk) := List.mem_map_of_mem _ hv
    rw [hmap] at hmem
    obtain ⟨r, hr, hrpk⟩ := List.mem_map.mp hmem
    rw [hnext, ← hrpk]
    exact hbound r hr

/-- Every endpoint call preserves store well-formedness; creation hands out
the fresh key and bumps the counter. -/
lemma step_preserves_wf (now : Nat) (op : Op) (s : Store) (hwf : WellFormed s) :
    WellFormed (step now op s) := by
  cases op with
  | confirm id_no otp =>
    cases hpick : pickLatest (pendingMatches s.requests id_no otp) with
    | none =>
      apply wf_of_pk_map_eq s hwf
      · simp [step, owner_confirm_otp, hpick]
      · simp [step, owner_confirm_otp, hpick]
    | some vr =>
      by_cases hexp : is_expired now vr = true
      · apply wf_of_pk_map_eq s hwf
        · simp [step, owner_confirm_otp, hpick, hexp, pk_map_save]
        · simp [step, owner_confirm_otp, hpick, hexp]
      · apply wf_of_pk_map_eq s hwf
        · simp [step, owner_confirm_otp, hpick, hexp, pk_map_save]
        · simp [step, owner_confirm_otp, hpick, hexp]
  | requestList u =>
    apply wf_of_pk_map_eq s hwf
    · simpa [step, hr_request_list] using pk_map_lazy_list now u s
    · simp [step, hr_request_list]
  | requestStatus pk0 =>
    cases hget : getReq s pk0 with
    | none =>
      apply wf_of_pk_map_eq s hwf
      · simp [step, hr_request_status, hget]
      · simp [step, hr_request_status, hget]
    | some vr =>
      by_cases hcond : (vr.status == Status.pending && is_expired now vr) = true
      · apply wf_of_pk_map_eq s hwf
        · simp [step, hr_request_status, hget, hcond, pk_map_save]
        · simp [step, hr_request_status, hget, hcond]
      · apply wf_of_pk_map_eq s hwf
        · simp [step, hr_request_status, hget, hcond]
        · simp [step, hr_request_status, hget, hcond]
  | viewRequest u pk0 =>
    cases hget : getReq s pk0 with
    | none =>
      apply wf_of_pk_map_eq s hwf
      · simp [step, hr_view_request, hget]
      · simp [step, hr_view_request, hget]
    | some vr =>
      by_cases hallow : viewRequestAllowed s u vr = true
      · by_cases hcv : (vr.status == Status.confirmed && !(is_expired now vr)) = true
        · apply wf_of_pk_map_eq s hwf
          · simp [step, hr_view_request, hget, hallow, hcv, pk_map_save]
          · simp [step, hr_view_request, hget, hallow, hcv]
        · apply wf_of_pk_map_eq s hwf
          · simp [step, hr_view_request, hget, hallow, hcv]
          · simp [step, hr_view_request, hget, hallow, hcv]
      · apply wf_of_pk_map_eq s hwf
        · simp [step, hr_view_request, hget, hallow]
        · simp [step, hr_view_request, hget, hallow]
  | viewOwner u pk0 =>
    cases hget : getReq s pk0 with
    | none =>
      apply wf_of_pk_map_eq s hwf
      · simp [step, hr_view_owner, hget]
      · simp [step, hr_view_owner, hget]
    | some vr =>
      by_cases hallow : (u.is_superuser || vr.hr_user == some u.pk) = true
      · by_cases hcv : (vr.status == Status.confirmed && !(is_expired now vr)) = true
        · apply wf_of_pk_map_eq s hwf
          · simp [step, hr_view_owner, hget, hallow, hcv, pk_map_save]
          · simp [step, hr_view_owner, hget, hallow, hcv]
        · apply wf_of_pk_map_eq s hwf
          · simp [step, hr_view_owner, hget, hallow, hcv]
          · simp [step, hr_view_owner, hget, hallow, hcv]
      · apply wf_of_pk_map_eq s hwf
        · simp [step, hr_view_owner, hget, hallow]
        · simp [step, hr_view_owner, hget, hallow]
  | verify u id_no business otp df =>
    by_cases hguard : (match business with
        | some b => !(u.is_superuser || businessStaff s b u.pk)
        | none => false) = true
    · apply wf_of_pk_map_eq s hwf
      · show (hr_verify now u id_no business otp df s).2.requests.map _ = _
        unfold hr_verify
        rw [if_pos hguard]
      · show (hr_verify now u id_no business otp df s).2.nextPk = _
        unfold hr_verify
        rw [if_pos hguard]
    · cases hown : s.owners.find? (fun o => o.id_no == id_no) with
      | none =>
        apply wf_of_pk_map_eq s hwf
        · show (hr_verify now u id_no business otp df s).2.requests.map _ = _
          unfold hr_verify
          rw [if_neg hguard, hown]
        · show (hr_verify now u id_no business otp df s).2.nextPk = _
          unfold hr_verify
          rw [if_neg hguard, hown]
      | some o =>
        have hreq : (step now (Op.verify u id_no business otp df) s).requests =
            s.requests ++ [newRequest now u id_no business otp s.nextPk] := by
          show (hr_verify now u id_no business otp df s).2.requests = _
          unfold hr_verify
          rw [if_neg hguard, hown]
          cases df <;> rfl
        have hnext : (step now (Op.verify u id_no business otp df) s).nextPk =
            s.nextPk + 1 := by
          show (hr_verify now u id_no business otp df s).2.nextPk = _
          unfold hr_verify
          rw [if_neg hguard, hown]
          cases df <;> rfl
        obtain ⟨hnd, hbound⟩ := hwf
        constructor
        · rw [hreq]
          rw [List.map_append]
          rw [List.nodup_append]
          refine ⟨hnd, List.nodup_singleton _, ?_⟩
          intro a ha hb
          have hlt : a < s.nextPk := by
            obtain ⟨r, hr, hrpk⟩ := List.mem_map.mp ha
            rw [← hrpk]
            exact hbound r hr
          have heq : a = s.nextPk := by
            simpa [newRequest] using hb
          rw [heq] at hlt
          exact Nat.lt_irrefl _ hlt
        · intro v hv
          rw [hreq] at hv
          rw [hnext]
          rcases List.mem_append.mp hv with h | h
          · exact Nat.lt_succ_of_lt (hbound v h)
          · have : v = newRequest now u id_no business otp s.nextPk := by
              simpa using h
            rw [this]
            exact Nat.lt_succ_self _

/-- `run` unfolds one step at a time. -/
lemma run_cons (p : Nat × Op) (ps : List (Nat × Op)) (s : Store) :
    run (p :: ps) s = run ps (step p.1 p.2 s) := rfl

/-- C6: statuses only ever take the three declared values, and over an
arbitrary sequence of endpoint calls a stored request's status is
monotonic: it either stays what it was or was `pending` before the change;
no operation leaves `confirmed` or `expired`. -/
theorem c6_status_monotone (ops : List (Nat × Op)) (s : Store) (hwf : WellFormed s) :
    ∀ v ∈ s.requests, ∃ w ∈ (run ops s).requests, w.pk = v.pk ∧
      (w.status = v.status ∨ v.status = Status.pending) ∧
      (w.status = Status.pending ∨ w.status = Status.confirmed ∨
        w.status = Status.expired) := by
  induction ops generalizing s with
  | nil =>
    intro v hv
    refine ⟨v, hv, rfl, Or.inl rfl, ?_⟩
    cases h : v.status
    · exact Or.inl rfl
    · exact Or.inr (Or.inl rfl)
    · exact Or.inr (Or.inr rfl)
  | cons p ps ih =>
    intro v hv
    obtain ⟨w, hw, hwpk, hwst, _⟩ := step_request_evolution p.1 p.2 s hwf.1 v hv
    obtain ⟨w2, hw2, hw2pk, hw2st, htot⟩ := ih (step p.1 p.2 s)
      (step_preserves_wf p.1 p.2 s hwf) w hw
    refine ⟨w2, by rw [run_cons]; exact hw2, hw2pk.trans hwpk, ?_, htot⟩
    rcases hw2st with h2 | h2
    · rcases hwst with h1 | h1
      · exact Or.inl (h2.trans h1)
      · exact Or.inr h1
    · rcases hwst with h1 | h1
      · exact Or.inr (h1 ▸ h2)
      · exact Or.inr h1

/-- Witness for `c6_status_monotone`: running the detail endpoint at time
200 on the concrete store evolves the pending request legally. -/
theorem c6_status_monotone_witness :
    ∃ w ∈ (run [(200, Op.requestStatus 1)] exStoreA).requests,
      w.pk = exPendingVr.pk ∧
      (w.status = exPendingVr.status ∨ exPendingVr.status = Status.pending) ∧
      (w.status = Status.pending ∨ w.status = Status.confirmed ∨
        w.status = Status.expired) :=
  c6_status_monotone [(200, Op.requestStatus 1)] exStoreA ⟨by decide, by decide⟩
    exPendingVr (by decide)

/-- C7 amended: over any single endpoint call, a stored request's
`viewed_at` either is untouched or is overwritten with the time of the
call, the latter only on a view endpoint whose target is confirmed and
unexpired (so the last successful view wins, rather than the first). -/
theorem c7_viewed_at_amended (now : Nat) (op : Op) (s : Store) (hwf : WellFormed s) :
    ∀ v ∈ s.requests, ∃ w ∈ (step now op s).requests, w.pk = v.pk ∧
      (w.viewed_at = v.viewed_at ∨
        (w.viewed_at = some now ∧ v.status = Status.confirmed ∧
         is_expired now v = false ∧ IsViewOp op)) := by
  intro v hv
  obtain ⟨w, hw, hwpk, _, hvw⟩ := step_request_evolution now op s hwf.1 v hv
  exact ⟨w, hw, hwpk, hvw⟩

/-- Witness for `c7_viewed_at_amended`: the successful view at time 50 of
the concrete confirmed request evolves its `viewed_at` legally. -/
theorem c7_viewed_at_amended_witness :
    ∃ w ∈ (step 50 (Op.viewRequest exHr 5) exStoreC7).requests,
      w.pk = exConfirmedVr.pk ∧
      (w.viewed_at = exConfirmedVr.viewed_at ∨
        (w.viewed_at = some 50 ∧ exConfirmedVr.status = Status.confirmed ∧
         is_expired 50 exConfirmedVr = false ∧ IsViewOp (Op.viewRequest exHr 5))) :=
  c7_viewed_at_amended 50 (Op.viewRequest exHr 5) exStoreC7 ⟨by decide, by decide⟩
    exConfirmedVr (by decide)

end CredAuth
